import Mathlib

/-!
# Verification of the Codelution Chrome extension core

Shallow embedding of the extension's content script (`src/src/content.js`,
which also contains the sidebar script after the separator) and background
script (`src/unnamed/part_000`), together with proofs about the message
routing, origin validation, DOM watch manager, navigation detector, web
component injector and panel-state persistence.

Conventions of the embedding:
* JS strings that may be `undefined`/`null` are `Option String`; `none`
  models an absent/null value.
* JS numbers used as timestamps are `Int` (millisecond clocks).
* JS truthiness on strings (`""`, `null`, `undefined` are falsy) is
  `truthyStr`; on numbers `0` is falsy.
* CSS selector resolution is modelled as lookup in a finite page model.
-/

/-- JS truthiness of a possibly-absent string: `undefined`/`null` and the
empty string are falsy, every other string is truthy. -/
def truthyStr : Option String → Bool
  | none => false
  | some s => s ≠ ""

/-- JS `x || d` on a possibly-absent string (used for parameter defaults
such as `attribute = attribute || 'innerText'`). -/
def orDefault (x : Option String) (d : String) : String :=
  match x with
  | some s => if s = "" then d else s
  | none => d

/-- JS truthiness of a possibly-absent number: `undefined`/`null` and `0`
are falsy. -/
def truthyInt : Option Int → Bool
  | none => false
  | some t => t ≠ 0

-- ---------------------------------------------------------------------------
-- Configuration model (content.js lines 26-91)
-- ---------------------------------------------------------------------------

/-- JSON-like configuration values, as loaded from `config/settings.json`
into the module-level `extensionConfig` variable of the content script. -/
inductive ConfigValue where
  | str (s : String)
  | num (n : Int)
  | boolean (b : Bool)
  | obj (fields : List (String × ConfigValue))

/-- First-match field lookup in a JS object literal, modelling `key in value`
followed by `value[key]`. -/
def lookupField (fields : List (String × ConfigValue)) (key : String) : Option ConfigValue :=
  match fields with
  | [] => none
  | (k, v) :: rest => if k = key then some v else lookupField rest key

/-- The key-walking loop of `getConfig` (content.js lines 79-90): descend
through object fields along the dotted path; any miss returns the fallback. -/
def getConfigKeys (v : ConfigValue) (keys : List String) (fallback : Option ConfigValue) :
    Option ConfigValue :=
  match keys with
  | [] => some v
  | k :: ks =>
    match v with
    | .obj fields =>
      match lookupField fields k with
      | some v2 => getConfigKeys v2 ks fallback
      | none => fallback
    | _ => fallback

/-- `path.split('.')` over the character list. -/
def splitDot (cs : List Char) : List (List Char) :=
  match cs with
  | [] => [[]]
  | c :: rest =>
    let r := splitDot rest
    if c = '.' then [] :: r
    else
      match r with
      | [] => [[c]]
      | h :: t => (c :: h) :: t

/-- The dotted configuration path split into keys. -/
def splitPath (s : String) : List String :=
  (splitDot s.data).map (fun cs => String.mk cs)

/-- `getConfig(path, fallback)` from content.js lines 76-91: when the
module-level `extensionConfig` is still `null` the fallback is returned
immediately; otherwise the dotted path is walked through the object. -/
def getConfig (extensionConfig : Option ConfigValue) (path : String)
    (fallback : Option ConfigValue) : Option ConfigValue :=
  match extensionConfig with
  | none => fallback
  | some cfg => getConfigKeys cfg (splitPath path) fallback

-- ---------------------------------------------------------------------------
-- Origin validator (content.js lines 12-20, 98-107)
-- ---------------------------------------------------------------------------

/-- Models `new URL(s).origin` for hierarchical URLs: the parse succeeds
iff the string has a nonempty scheme before `"://"` and a nonempty
host[:port] part after it, and the origin is `scheme://host[:port]`
(everything up to the first `/`, `?` or `#`). A string with no `"://"`
(for example the string `"null"` that JS produces from a `null` config
value) makes the constructor throw, modelled as `none`.
The scheme is everything before the first occurrence of `"://"`. -/
def splitSchemeRest (cs : List Char) : Option (List Char × List Char) :=
  match cs with
  | ':' :: '/' :: '/' :: rest => some ([], rest)
  | c :: rest =>
    match splitSchemeRest rest with
    | some (pre, post) => some (c :: pre, post)
    | none => none
  | [] => none

/-- See the previous doc comment: split at the first occurrence of
`"://"`, take the host[:port] part up to the first `/`, `?` or `#`, and
rebuild `scheme://host[:port]`. -/
def urlOrigin (s : String) : Option String :=
  match splitSchemeRest s.data with
  | none => none
  | some (schemeCs, restCs) =>
    if schemeCs = [] then none
    else
      let hostPort := restCs.takeWhile fun c => !(c == '/') && !(c == '?') && !(c == '#')
      if hostPort = [] then none
      else some (String.mk (schemeCs ++ ':' :: '/' :: '/' :: hostPort))

/-- `getTrustedOrigin` (content.js lines 12-20): reads
`getConfig('sidebar.iframeSrc')` (fallback `null`), feeds it to the URL
constructor and returns `url.origin`; any throw (absent, non-string or
malformed value) is caught and yields the empty string. -/
def getTrustedOrigin (extensionConfig : Option ConfigValue) : String :=
  match getConfig extensionConfig "sidebar.iframeSrc" none with
  | some (.str s) =>
    match urlOrigin s with
    | some o => o
    | none => ""
  | _ => ""

/-- An inbound `message` event as seen by a `window` message listener:
the sender's origin plus the fields of `event.data` that the listeners
read. `hasObjectData` models `event.data && typeof event.data === 'object'`. -/
structure WindowEvent where
  origin : String
  hasObjectData : Bool
  msgType : Option String
  selector : Option String
  attrName : Option String
  eventType : Option String
  watchId : Option String
  requestId : Option String
  srcField : Option String
  nameField : Option String
  placement : Option String
  iframeSelector : Option String

/-- The handler bodies reachable from the content script's window message
listener (content.js lines 98-152). -/
inductive ContentHandler where
  | injectWebComponentH
  | manipulateDomH
  | domObserverH
  | getDomInfoH
  | tabInfoH
deriving DecidableEq

/-- The content script's window message listener (content.js lines 98-152):
drop non-object data, drop any event whose origin differs from
`getTrustedOrigin()`, then dispatch on `event.data.type`; unrecognized
types fall through with no handler. Returns the handler that runs, if any. -/
def contentWindowDispatch (extensionConfig : Option ConfigValue) (event : WindowEvent) :
    Option ContentHandler :=
  if !event.hasObjectData then none
  else
    let trustedOrigin := getTrustedOrigin extensionConfig
    if event.origin ≠ trustedOrigin then none
    else
      match event.msgType with
      | some t =>
        if t = "injectWebComponent" then some .injectWebComponentH
        else if t = "manipulate-dom" then some .manipulateDomH
        else if t = "start-dom-observer" ∨ t = "observe-dom-value" then some .domObserverH
        else if t = "get-dom-info" then some .getDomInfoH
        else if t = "get-tab-info" then some .tabInfoH
        else none
      | none => none

-- ---------------------------------------------------------------------------
-- Sidebar script window listeners (content.js lines 1291-1446)
-- ---------------------------------------------------------------------------

/-- The sidebar script's `manipulate-dom` window listener (content.js lines
1291-1305): the guard is only `event.data && event.data.type ===
'manipulate-dom'` — there is no origin check — and on a match the handler
body (a `chrome.tabs.query` forwarding the request to the content script)
is dispatched. Returns whether the handler body runs. -/
def sidebarManipulateDomDispatch (event : WindowEvent) : Bool :=
  event.hasObjectData && event.msgType == some "manipulate-dom"

/-- A `chrome.tabs.sendMessage` payload of type `manipulateDom` as built by
the sidebar script's observer-registration listeners. -/
structure ChromeDomMsg where
  msgType : String
  action : Option String
  selector : Option String
  attrName : Option String
  eventType : Option String
  watchId : Option String
  iframeSelector : Option String
deriving DecidableEq

/-- The sidebar script's `start-dom-observer` window listener (content.js
lines 1350-1369): forwards the registration to the content script as a
`manipulateDom`/`observeDomValue` message carrying selector, attribute,
eventType and the caller's `watchId`. -/
def sidebarStartDomObserverForward (event : WindowEvent) : Option ChromeDomMsg :=
  if event.hasObjectData && event.msgType == some "start-dom-observer" then
    some ⟨"manipulateDom", some "observeDomValue", event.selector, event.attrName,
      event.eventType, event.watchId, none⟩
  else none

/-- The sidebar script's `observe-dom-value` window listener (content.js
lines 1431-1446): forwards the registration to the content script as a
`manipulateDom`/`observeDomValue` message carrying selector, attribute,
eventType and `iframeSelector` — the `watchId` field of the inbound event
is not included in the forwarded message. -/
def sidebarObserveDomValueForward (event : WindowEvent) : Option ChromeDomMsg :=
  if event.hasObjectData && event.msgType == some "observe-dom-value" then
    some ⟨"manipulateDom", some "observeDomValue", event.selector, event.attrName,
      event.eventType, none, event.iframeSelector⟩
  else none

/-- A `domValueChanged` message as sent by the content script's watch
handlers and relayed by the sidebar script. -/
structure DomValueChangedMsg where
  selector : Option String
  attrName : Option String
  value : Option String
  watchId : Option String
deriving DecidableEq

/-- The sidebar script's `chrome.runtime.onMessage` relay (content.js lines
1372-1385): a message is forwarded to the panel iframe only when its type
is `domValueChanged` AND `msg.watchId` is truthy AND the iframe exists;
the forwarded message repeats selector, attribute, value and watchId. -/
def sidebarRelayDomValueChanged (msgType : String) (msg : DomValueChangedMsg)
    (iframePresent : Bool) : Option DomValueChangedMsg :=
  if msgType = "domValueChanged" ∧ truthyStr msg.watchId then
    if iframePresent then some ⟨msg.selector, msg.attrName, msg.value, msg.watchId⟩ else none
  else none

-- ---------------------------------------------------------------------------
-- Navigation detector (content.js lines 548-684)
-- ---------------------------------------------------------------------------

/-- The state the navigation detector owns: the module-level `currentUrl`
variable (content.js line 548), plus the trace of `notifyUrlChange` calls,
each recorded as a `(newUrl, oldUrl)` pair in emission order. -/
structure NavState where
  currentUrl : String
  notifications : List (String × String)
deriving DecidableEq

/-- The shared comparison-and-update step all four navigation signals
reduce to: read the page location, compare with `currentUrl`, and when
they differ update `currentUrl` and call `notifyUrlChange(newUrl, oldUrl)`. -/
def checkUrl (loc : String) (s : NavState) : NavState :=
  if loc ≠ s.currentUrl then
    ⟨loc, s.notifications ++ [(loc, s.currentUrl)]⟩
  else s

/-- The `history.pushState` wrapper (content.js lines 595-604): capture
`oldUrl = currentUrl`, perform the underlying call (after which the page
location is `loc`), read `newUrl = window.location.href`, and when they
differ update `currentUrl` and notify. -/
def pushStateStep (loc : String) (s : NavState) : NavState :=
  let oldUrl := s.currentUrl
  let newUrl := loc
  if newUrl ≠ oldUrl then ⟨newUrl, s.notifications ++ [(newUrl, oldUrl)]⟩ else s

/-- The `history.replaceState` wrapper (content.js lines 606-615): same
comparison-and-update step as the `pushState` wrapper. -/
def replaceStateStep (loc : String) (s : NavState) : NavState :=
  let oldUrl := s.currentUrl
  let newUrl := loc
  if newUrl ≠ oldUrl then ⟨newUrl, s.notifications ++ [(newUrl, oldUrl)]⟩ else s

/-- The `popstate` listener (content.js lines 619-629): read the location
at event time and run the comparison-and-update step. -/
def popstateStep (loc : String) (s : NavState) : NavState :=
  let oldUrl := s.currentUrl
  let newUrl := loc
  if newUrl ≠ oldUrl then ⟨newUrl, s.notifications ++ [(newUrl, oldUrl)]⟩ else s

/-- One tick of the 1-second URL polling interval (content.js lines
632-641): read the location and run the comparison-and-update step. -/
def pollStep (loc : String) (s : NavState) : NavState :=
  let newUrl := loc
  if newUrl ≠ s.currentUrl then ⟨newUrl, s.notifications ++ [(newUrl, s.currentUrl)]⟩ else s

/-- The title observer's settle re-check (content.js lines 655-662): after
the 100 ms settle delay following a title mutation, read the location and
run the comparison-and-update step. -/
def titleSettleStep (loc : String) (s : NavState) : NavState :=
  let newUrl := loc
  if newUrl ≠ s.currentUrl then ⟨newUrl, s.notifications ++ [(newUrl, s.currentUrl)]⟩ else s

/-- The four independent signal paths of the navigation detector (the
history interception contributes two entry points). -/
inductive NavSignal where
  | pushState
  | replaceState
  | popstate
  | poll
  | titleSettle
deriving DecidableEq

/-- Dispatch one signal observation at page location `loc`. Each execution
context is single-threaded, so each signal handler runs atomically. -/
def navStep (loc : String) (s : NavState) : NavSignal → NavState
  | .pushState => pushStateStep loc s
  | .replaceState => replaceStateStep loc s
  | .popstate => popstateStep loc s
  | .poll => pollStep loc s
  | .titleSettle => titleSettleStep loc s

/-- Run a sequence of signal observations, all seeing page location `loc`. -/
def runSignals (loc : String) (s : NavState) (sigs : List NavSignal) : NavState :=
  sigs.foldl (navStep loc) s

-- ---------------------------------------------------------------------------
-- Panel state persistence (content.js 170-185, 1221-1250; part_000 84-124)
-- ---------------------------------------------------------------------------

/-- The persisted panel state record in `chrome.storage.local`; each key
may be absent if never written. -/
structure StoredState where
  sidebarOpen : Option Bool
  sidebarUrl : Option String
  lastStateChange : Option Int
deriving DecidableEq

/-- An argument object passed to `chrome.storage.local.set`: only the keys
present (`some`) are written, the others keep their stored value. -/
structure StorageSetArg where
  sidebarOpen : Option Bool
  sidebarUrl : Option String
  lastStateChange : Option Int
deriving DecidableEq

/-- `chrome.storage.local.set` semantics: keys named in the argument are
overwritten, unnamed keys are left untouched. -/
def applySet (st : StoredState) (arg : StorageSetArg) : StoredState :=
  ⟨match arg.sidebarOpen with | some b => some b | none => st.sidebarOpen,
   match arg.sidebarUrl with | some u => some u | none => st.sidebarUrl,
   match arg.lastStateChange with | some t => some t | none => st.lastStateChange⟩

/-- `saveSidebarState(isOpen)` (content.js lines 1221-1227): one set call
naming all three keys — `sidebarOpen`, `sidebarUrl` (the current page
location) and `lastStateChange` (`Date.now()`). -/
def saveSidebarStateArg (isOpen : Bool) (href : String) (now : Int) : StorageSetArg :=
  ⟨some isOpen, some href, some now⟩

/-- The background script's stale-state reset (part_000 line 108):
`chrome.storage.local.set({ sidebarOpen: false })` names only the
`sidebarOpen` key. -/
def backgroundStaleReset : StorageSetArg :=
  ⟨some false, none, none⟩

/-- `result.lastStateChange && result.lastStateChange > threshold`: the
stored timestamp is truthy and strictly newer than the threshold. -/
def recentlyChanged (lastStateChange : Option Int) (threshold : Int) : Bool :=
  truthyInt lastStateChange &&
    (match lastStateChange with
     | some t => decide (t > threshold)
     | none => false)

/-- `getConfig('behavior.autoRestoreTimeMinutes', 5)` read as a number
(restoreSidebarState, content.js line 1233). A non-numeric configured
value (which would make the JS arithmetic NaN) is not modelled. -/
def autoRestoreMinutes (extensionConfig : Option ConfigValue) : Int :=
  match getConfig extensionConfig "behavior.autoRestoreTimeMinutes" (some (.num 5)) with
  | some (.num m) => m
  | _ => 0

/-- What one restore evaluation does besides reading storage. -/
inductive RestoreOutcome where
  | opensPanel
  | writesClosed (w : StorageSetArg)
  | noAction
deriving DecidableEq

/-- `restoreSidebarState` (content.js lines 1230-1250): read
`sidebarOpen`/`lastStateChange`; when open and recently changed, reopen
the panel after a delay unless the panel DOM already exists; when open
and stale, persist the closed state through `saveSidebarState(false)`;
otherwise do nothing. `now` is the evaluation clock, `href` the page
location, `hasSidebar` whether the panel wrapper element exists. -/
def restoreSidebarState (extensionConfig : Option ConfigValue) (stored : StoredState)
    (now : Int) (href : String) (hasSidebar : Bool) : RestoreOutcome :=
  let autoRestoreTime := now - autoRestoreMinutes extensionConfig * 60 * 1000
  let wasRecentlyChanged := recentlyChanged stored.lastStateChange autoRestoreTime
  if stored.sidebarOpen == some true && wasRecentlyChanged then
    (if hasSidebar then .noAction else .opensPanel)
  else if stored.sidebarOpen == some true && !wasRecentlyChanged then
    .writesClosed (saveSidebarStateArg false href now)
  else .noAction

/-- What the background page-load check does (part_000 lines 90-111). -/
inductive BackgroundCheckOutcome where
  | sendsCheckSidebarState
  | patchesClosed (w : StorageSetArg)
  | noAction
deriving DecidableEq

/-- The background script's `chrome.tabs.onUpdated` restore check
(part_000 lines 90-111): a fixed five-minute freshness window; when open
and fresh, ask the tab's content script to check its sidebar state; when
open and stale, patch `sidebarOpen` to `false`; otherwise do nothing. -/
def backgroundRestoreCheck (stored : StoredState) (now : Int) : BackgroundCheckOutcome :=
  let fiveMinutesAgo := now - 5 * 60 * 1000
  let wasRecentlyChanged := recentlyChanged stored.lastStateChange fiveMinutesAgo
  if stored.sidebarOpen == some true && wasRecentlyChanged then .sendsCheckSidebarState
  else if stored.sidebarOpen == some true && !wasRecentlyChanged then
    .patchesClosed backgroundStaleReset
  else .noAction

-- ---------------------------------------------------------------------------
-- DOM watch manager (content.js lines 193-245 and 431-517)
-- ---------------------------------------------------------------------------

/-- First-match association-list lookup keyed by strings. -/
def lookupAssoc {α : Type} (l : List (String × α)) (k : String) : Option α :=
  match l with
  | [] => none
  | (k2, v) :: rest => if k2 = k then some v else lookupAssoc rest k

/-- A page element as the watch code reads it: its JS properties (for the
`attribute in el` / `el[attribute]` path) and its HTML attributes (for the
`el.getAttribute(attribute)` path, which yields `null` when absent). -/
structure DomElement where
  props : List (String × String)
  attrs : List (String × String)
deriving DecidableEq

/-- `(attribute in el) ? el[attribute] : el.getAttribute(attribute)`:
prefer the JS property when the name is present on the element, otherwise
fall back to the attribute (possibly `null`). -/
def readValue (el : DomElement) (a : String) : Option String :=
  match lookupAssoc el.props a with
  | some v => some v
  | none => lookupAssoc el.attrs a

/-- A page model: selector resolution (`document.querySelector`) is lookup
of the first element registered under that selector string. -/
def querySelector (page : List (String × DomElement)) (sel : String) : Option DomElement :=
  lookupAssoc page sel

/-- One attached watch closure: the captured `selector`, resolved
`attribute` and `eventType`, the caller's `watchId`, and the closure's
mutable `lastValue` variable. Attaching `addEventListener` or a
`MutationObserver` both yield such a binding; nothing ever detaches one. -/
structure Binding where
  selector : String
  attrName : String
  eventType : String
  watchId : Option String
  lastValue : Option String
deriving DecidableEq

/-- The watch manager's state: all attached bindings in attach order, and
the trace of `domValueChanged` messages emitted so far. -/
structure WatchState where
  bindings : List Binding
  sent : List DomValueChangedMsg
deriving DecidableEq

/-- `handleDomObserver(selector, attribute, eventType, watchId)`
(content.js lines 431-494): resolve the element (silent no-op when
absent); default `attribute` to `'innerText'` and `eventType` to
`'input'` for the `value` attribute else `'DOMSubtreeModified'`; read the
current value into `lastValue`; post it immediately to the panel iframe
when the iframe exists; then attach the listener/observer closure. -/
def handleDomObserver (page : List (String × DomElement)) (selector : String)
    (attrName eventType watchId : Option String) (iframePresent : Bool)
    (st : WatchState) : WatchState :=
  match querySelector page selector with
  | none => st
  | some el =>
    let a := orDefault attrName "innerText"
    let e := orDefault eventType (if a = "value" then "input" else "DOMSubtreeModified")
    let lastValue := readValue el a
    ⟨st.bindings ++ [⟨selector, a, e, watchId, lastValue⟩],
     if iframePresent then st.sent ++ [⟨some selector, some a, lastValue, watchId⟩]
     else st.sent⟩

/-- The body shared by every attached listener/observer (content.js lines
459-474 and 476-492): re-read the value; when it differs from the
closure's `lastValue`, update `lastValue` and post a `domValueChanged`
message (only when the iframe exists — the `lastValue` update is
unconditional on the iframe). `value` is the freshly read value. -/
def bindingStepValue (b : Binding) (value : Option String) (iframePresent : Bool) :
    Binding × Option DomValueChangedMsg :=
  if value ≠ b.lastValue then
    (⟨b.selector, b.attrName, b.eventType, b.watchId, value⟩,
     if iframePresent then some ⟨some b.selector, some b.attrName, value, b.watchId⟩ else none)
  else (b, none)

/-- A listener firing against the element's current state: the fresh read
is `readValue el b.attrName`. -/
def fireBinding (el : DomElement) (iframePresent : Bool) (b : Binding) :
    Binding × Option DomValueChangedMsg :=
  bindingStepValue b (readValue el b.attrName) iframePresent

/-- Deliver one DOM event of type `evt` on the element now bound to `sel`
to every attached binding whose selector and event type match; bindings
fire in attach order, each against its own `lastValue`. -/
def fireBindings (el : DomElement) (sel evt : String) (iframePresent : Bool) :
    List Binding → List Binding × List DomValueChangedMsg
  | [] => ([], [])
  | b :: rest =>
    let tail := fireBindings el sel evt iframePresent rest
    if b.selector = sel ∧ b.eventType = evt then
      let r := fireBinding el iframePresent b
      (r.1 :: tail.1, r.2.toList ++ tail.2)
    else (b :: tail.1, tail.2)

/-- A DOM event on the page: resolve the element and deliver to all
matching bindings, appending any emitted messages to the trace. -/
def fireEvent (page : List (String × DomElement)) (sel evt : String)
    (iframePresent : Bool) (st : WatchState) : WatchState :=
  match querySelector page sel with
  | none => st
  | some el =>
    let r := fireBindings el sel evt iframePresent st.bindings
    ⟨r.1, st.sent ++ r.2⟩

/-- Run one binding through a sequence of fresh reads, collecting the
messages it emits. -/
def runReads (b : Binding) (reads : List (Option String)) :
    Binding × List DomValueChangedMsg :=
  match reads with
  | [] => (b, [])
  | v :: vs =>
    let r := bindingStepValue b v true
    let rest := runReads r.1 vs
    (rest.1, r.2.toList ++ rest.2)

/-- The change-detection reference function: keep exactly the reads that
differ from the previously observed value, starting from `last`. -/
def changesFrom (last : Option String) : List (Option String) → List (Option String)
  | [] => []
  | v :: vs => if v ≠ last then v :: changesFrom v vs else changesFrom last vs

/-- `handleManipulateDomRequest`, `observeDomValue` branch (content.js
lines 197-245): same defaulting, lookup, immediate `domValueChanged` (via
`chrome.runtime.sendMessage`, no iframe guard) and closure attach as
`handleDomObserver`, driven by a `manipulateDom` request object. -/
def observeDomValueRequest (page : List (String × DomElement)) (req : ChromeDomMsg)
    (st : WatchState) : WatchState :=
  match req.selector with
  | none => st
  | some selector =>
    let a := orDefault req.attrName "innerText"
    let e := orDefault req.eventType (if a = "value" then "input" else "DOMSubtreeModified")
    match querySelector page selector with
    | none => st
    | some el =>
      let lastValue := readValue el a
      ⟨st.bindings ++ [⟨selector, a, e, req.watchId, lastValue⟩],
       st.sent ++ [⟨some selector, some a, lastValue, req.watchId⟩]⟩

/-- The `dom-info-result` message posted back to the panel iframe. -/
structure DomInfoResult where
  selector : Option String
  attrName : Option String
  value : Option String
  requestId : Option String
deriving DecidableEq

/-- `handleGetDomInfo(selector, attribute, requestId)` (content.js lines
497-517): one-shot read, `null` when the element is absent, echoed
`requestId`; posted only when the panel iframe exists. -/
def handleGetDomInfo (page : List (String × DomElement)) (selector a : String)
    (requestId : Option String) (iframePresent : Bool) : Option DomInfoResult :=
  let value := match querySelector page selector with
    | some el => readValue el a
    | none => none
  if iframePresent then some ⟨some selector, some a, value, requestId⟩ else none

-- ---------------------------------------------------------------------------
-- Web component injector (content.js lines 298-386)
-- ---------------------------------------------------------------------------

mutual
/-- A DOM element tree for the injector: tag name, `id` attribute (used to
model CSS selector resolution — HTML requires unique ids), `src` attribute
(set on script elements) and child elements in document order. -/
inductive DomNode where
  | node (tag : String) (idAttr : String) (srcAttr : Option String) (children : DomForest)
inductive DomForest where
  | nil
  | cons (head : DomNode) (tail : DomForest)
end

/-- Tag of a node. -/
def nodeTag : DomNode → String
  | .node t _ _ _ => t

/-- `id` attribute of a node. -/
def nodeId : DomNode → String
  | .node _ i _ _ => i

/-- `src` attribute of a node. -/
def nodeSrc : DomNode → Option String
  | .node _ _ s _ => s

/-- Children of a node. -/
def nodeChildren : DomNode → DomForest
  | .node _ _ _ cs => cs

/-- Append a node at the end of a forest (`appendChild` on the body). -/
def appendEndF (f : DomForest) (x : DomNode) : DomForest :=
  match f with
  | .nil => .cons x .nil
  | .cons c cs => .cons c (appendEndF cs x)

mutual
/-- First node in preorder (the `document.querySelector` order) whose
root fields — tag, id attribute, src attribute — satisfy `p`. -/
def findPN (p : String → String → Option String → Bool) : DomNode → Option DomNode
  | .node t i s cs =>
    if p t i s then some (.node t i s cs) else findPF p cs
def findPF (p : String → String → Option String → Bool) : DomForest → Option DomNode
  | .nil => none
  | .cons c cs =>
    match findPN p c with
    | some r => some r
    | none => findPF p cs
end

mutual
/-- Number of nodes whose root fields satisfy `p`. -/
def countPN (p : String → String → Option String → Bool) : DomNode → Nat
  | .node t i s cs => (if p t i s then 1 else 0) + countPF p cs
def countPF (p : String → String → Option String → Bool) : DomForest → Nat
  | .nil => 0
  | .cons c cs => countPN p c + countPF p cs
end

/-- Root-field predicate for a CSS tag selector (`document.querySelector(name)`). -/
def tagP (tag : String) : String → String → Option String → Bool :=
  fun t _ _ => t == tag

/-- Root-field predicate for the selector `script[src="src"]`. -/
def scriptP (src : String) : String → String → Option String → Bool :=
  fun t _ s => t == "script" && s == some src

/-- Root-field predicate for an id selector. -/
def idP (i : String) : String → String → Option String → Bool :=
  fun _ i2 _ => i2 == i

/-- `document.querySelector(name)` truthiness over the whole document. -/
def hasTagF (tag : String) (f : DomForest) : Bool :=
  (findPF (tagP tag) f).isSome

/-- Truthiness of a `script[src=...]` query over the whole document. -/
def hasScriptF (src : String) (f : DomForest) : Bool :=
  (findPF (scriptP src) f).isSome

mutual
/-- `appendChild(child)` on the first preorder node satisfying `p`; a
no-op when no node matches. -/
def appendAtPN (p : String → String → Option String → Bool) (child : DomNode) :
    DomNode → DomNode
  | .node t i s cs =>
    if p t i s then .node t i s (appendEndF cs child)
    else .node t i s (appendAtPF p child cs)
def appendAtPF (p : String → String → Option String → Bool) (child : DomNode) :
    DomForest → DomForest
  | .nil => .nil
  | .cons c cs =>
    if (findPN p c).isSome then .cons (appendAtPN p child c) cs
    else .cons c (appendAtPF p child cs)
end

mutual
/-- `insertBefore(child, target.firstChild)` on the first preorder node
satisfying `p`. -/
def prependAtPN (p : String → String → Option String → Bool) (child : DomNode) :
    DomNode → DomNode
  | .node t i s cs =>
    if p t i s then .node t i s (.cons child cs)
    else .node t i s (prependAtPF p child cs)
def prependAtPF (p : String → String → Option String → Bool) (child : DomNode) :
    DomForest → DomForest
  | .nil => .nil
  | .cons c cs =>
    if (findPN p c).isSome then .cons (prependAtPN p child c) cs
    else .cons c (prependAtPF p child cs)
end

mutual
/-- `target.replaceWith(child)` on the first preorder node satisfying `p`. -/
def replaceAtPN (p : String → String → Option String → Bool) (child : DomNode) :
    DomNode → DomNode
  | .node t i s cs => .node t i s (replaceAtPF p child cs)
def replaceAtPF (p : String → String → Option String → Bool) (child : DomNode) :
    DomForest → DomForest
  | .nil => .nil
  | .cons c cs =>
    if p (nodeTag c) (nodeId c) (nodeSrc c) then .cons child cs
    else if (findPN p c).isSome then .cons (replaceAtPN p child c) cs
    else .cons c (replaceAtPF p child cs)
end

mutual
/-- The children of the parent of the first preorder node with id `tid`;
`full` is the children forest of the node currently scanned (the whole
document forest at top level, whose owner is the body). -/
def parentChildrenN (tid : String) : DomNode → Option DomForest
  | .node _ _ _ cs => parentScanF tid cs cs
def parentScanF (tid : String) (full : DomForest) : DomForest → Option DomForest
  | .nil => none
  | .cons c cs =>
    if nodeId c == tid then some full
    else
      match parentChildrenN tid c with
      | some r => some r
      | none => parentScanF tid full cs
end

/-- The script element the injector creates:
`document.createElement('script')` with `type='module'` and the given src. -/
def scriptNode (src : String) : DomNode :=
  .node "script" "" (some src) .nil

/-- The custom element the injector creates: tag `name` with the script
element appended inside it. -/
def customElNode (nm src : String) : DomNode :=
  .node nm "" none (.cons (scriptNode src) .nil)

/-- The fields of an `injectWebComponent` request (content.js 298-302). -/
structure InjectRequest where
  nameField : Option String
  srcField : Option String
  selector : Option String
  placement : Option String

/-- Result of one `injectWebComponent` call: either the (possibly
updated) document, or the document unchanged with a 500 ms retry of
`createCustomElement` scheduled because the custom element type is not
yet registered. -/
inductive InjectResult where
  | done (doc : DomForest)
  | deferredRetry (doc : DomForest)

/-- The document held by an `InjectResult`. -/
def resultDoc : InjectResult → DomForest
  | .done d => d
  | .deferredRetry d => d

/-- `injectWebComponent(request)` (content.js lines 298-386). Missing
`src` or `name` is a silent no-op. Otherwise: if a script with the same
src or an element of type `name` already exists anywhere, ensure the
existing element (when there is one) has the script mounted inside it and
stop. Otherwise run `createCustomElement`: when the custom-element
registry is available and `name` is unregistered, defer via a 500 ms
retry; else resolve the target (`selector ? document.querySelector(selector)
: null`); with no target, append the new element at the end of the body
unless one of type `name` already exists there; with a target, stop if
the target or its parent already contains an element of type `name`, else
create the element (script inside) and place it per `placement`
(`replace` / `prepend` / default `append`). `registryAvailable` models
`typeof customElements !== 'undefined' && customElements`, `registry` the
set of defined custom element names. -/
def injectWebComponent (registryAvailable : Bool) (registry : List String)
    (req : InjectRequest) (doc : DomForest) : InjectResult :=
  if !truthyStr req.srcField then .done doc
  else if !truthyStr req.nameField then .done doc
  else
    match req.nameField, req.srcField with
    | some nm, some src =>
      let placement := orDefault req.placement "append"
      let existingScript := hasScriptF src doc
      let existingCustomEl := findPF (tagP nm) doc
      if existingScript || existingCustomEl.isSome then
        match existingCustomEl with
        | some el =>
          if !(findPF (scriptP src) (nodeChildren el)).isSome then
            .done (appendAtPF (tagP nm) (scriptNode src) doc)
          else .done doc
        | none => .done doc
      else
        -- createCustomElement (content.js lines 315-367)
        if registryAvailable && !(registry.contains nm) then .deferredRetry doc
        else
          let target :=
            match req.selector with
            | some sel => if sel = "" then none else findPF (idP sel) doc
            | none => none
          match target with
          | none =>
            if !(hasTagF nm doc) then .done (appendEndF doc (customElNode nm src))
            else .done doc
          | some tgt =>
            let parentForest :=
              match parentScanF (nodeId tgt) doc doc with
              | some r => r
              | none => DomForest.nil
            if (findPF (tagP nm) (nodeChildren tgt)).isSome ||
                (findPF (tagP nm) parentForest).isSome then
              .done doc
            else if placement = "replace" then
              .done (replaceAtPF (idP (nodeId tgt)) (customElNode nm src) doc)
            else if placement = "prepend" then
              .done (prependAtPF (idP (nodeId tgt)) (customElNode nm src) doc)
            else
              .done (appendAtPF (idP (nodeId tgt)) (customElNode nm src) doc)
    | _, _ => .done doc

-- ---------------------------------------------------------------------------
-- Remaining shared definitions
-- ---------------------------------------------------------------------------

/-- The built-in fallback configuration `loadExtensionConfig` installs when
`config/settings.json` cannot be loaded (content.js lines 38-70). -/
def defaultExtensionConfig : ConfigValue :=
  .obj
    [("sidebar", .obj
        [("title", .str "Codelution Assistant"),
         ("iframeSrc", .str "https://add-functions-codelution_chrome_extension.toddle.site/"),
         ("defaultWidth", .str "400px"),
         ("mobileWidthPercent", .num 85)]),
     ("styling", .obj
        [("primaryColor", .str "#1976d2"),
         ("primaryColorHover", .str "#1565c0"),
         ("backgroundColor", .str "#fff"),
         ("textColor", .str "#333"),
         ("shadowColor", .str "rgba(0,0,0,0.25)")]),
     ("button", .obj
        [("tooltip", .str "Open Codelution Assistant"),
         ("size", .obj [("desktop", .str "50px"), ("mobile", .str "44px")]),
         ("position", .obj [("desktop", .str "20px"), ("mobile", .str "10px")])]),
     ("behavior", .obj
        [("autoRestoreTimeMinutes", .num 5),
         ("enableResize", .boolean true),
         ("enableMobileOptimization", .boolean true),
         ("minWidth", .num 250),
         ("maxWidthPercent", .num 90)])]

/-- The origin check of the content script's window message listener
(content.js lines 103-107): accept exactly when the event origin equals
`getTrustedOrigin()`. -/
def originAccepts (extensionConfig : Option ConfigValue) (origin : String) : Bool :=
  origin == getTrustedOrigin extensionConfig

/-- How one listener firing transforms one attached binding: closures not
attached for this selector and event type are untouched. -/
def bindingAfterEvent (el : DomElement) (sel evt : String) (iframePresent : Bool)
    (b : Binding) : Binding :=
  if b.selector = sel ∧ b.eventType = evt then (fireBinding el iframePresent b).1 else b

/-- The message (if any) one attached binding emits for one listener
firing. -/
def bindingEmission (el : DomElement) (sel evt : String) (iframePresent : Bool)
    (b : Binding) : Option DomValueChangedMsg :=
  if b.selector = sel ∧ b.eventType = evt then (fireBinding el iframePresent b).2 else none

-- ---------------------------------------------------------------------------
-- Theorems
-- ---------------------------------------------------------------------------

/-- All four signal handlers are the same comparison-and-update step. -/
theorem navStep_eq_checkUrl (loc : String) (s : NavState) (sig : NavSignal) :
    navStep loc s sig = checkUrl loc s := by
  cases sig <;> rfl

/-- A signal that observes no delta leaves the state unchanged. -/
theorem checkUrl_stable (loc : String) (s : NavState) (h : s.currentUrl = loc) :
    checkUrl loc s = s := by
  simp [checkUrl, h]

/-- Once `currentUrl` equals the location, any further signals are silent. -/
theorem runSignals_stable (loc : String) (sigs : List NavSignal) :
    ∀ s : NavState, s.currentUrl = loc → runSignals loc s sigs = s := by
  induction sigs with
  | nil => intro s _; rfl
  | cons sig rest ih =>
    intro s h
    show runSignals loc (navStep loc s sig) rest = s
    rw [navStep_eq_checkUrl, checkUrl_stable loc s h]
    exact ih s h

/-- C1: for one logical navigation from `u` to `v`, any nonempty sequence
of observations by the four signal paths (in any order) emits exactly one
navigation-changed notification, ends with `currentUrl` equal to the final
location, and any signal running after `currentUrl` is updated emits
nothing. -/
theorem c1_navigation_single_notification (sigs : List NavSignal) (u v : String)
    (s : NavState) (hcur : s.currentUrl = u) (hne : u ≠ v) (hsigs : sigs ≠ []) :
    (runSignals v s sigs).currentUrl = v ∧
    (runSignals v s sigs).notifications = s.notifications ++ [(v, u)] ∧
    ∀ sig : NavSignal, navStep v (runSignals v s sigs) sig = runSignals v s sigs := by
  cases sigs with
  | nil => exact absurd rfl hsigs
  | cons sig rest =>
    have hfire : navStep v s sig = ⟨v, s.notifications ++ [(v, u)]⟩ := by
      rw [navStep_eq_checkUrl]
      unfold checkUrl
      rw [hcur, if_pos (Ne.symm hne)]
    have hrun : runSignals v s (sig :: rest) = ⟨v, s.notifications ++ [(v, u)]⟩ := by
      show runSignals v (navStep v s sig) rest = _
      rw [hfire]
      exact runSignals_stable v rest _ rfl
    refine ⟨by rw [hrun], by rw [hrun], ?_⟩
    intro sig2
    rw [navStep_eq_checkUrl]
    exact checkUrl_stable v _ (by rw [hrun])

/-- C1 witness: a concrete navigation observed by the history wrapper, a
poll tick and a popstate event produces one notification and the final
URL, and a later title-settle check is silent. -/
theorem c1_navigation_single_notification_witness :
    (runSignals "https://app.example/b" ⟨"https://app.example/a", []⟩
        [.pushState, .poll, .popstate]).currentUrl = "https://app.example/b" ∧
    (runSignals "https://app.example/b" ⟨"https://app.example/a", []⟩
        [.pushState, .poll, .popstate]).notifications =
      [("https://app.example/b", "https://app.example/a")] ∧
    navStep "https://app.example/b"
        (runSignals "https://app.example/b" ⟨"https://app.example/a", []⟩
          [.pushState, .poll, .popstate]) .titleSettle =
      runSignals "https://app.example/b" ⟨"https://app.example/a", []⟩
        [.pushState, .poll, .popstate] := by
  have h := c1_navigation_single_notification [.pushState, .poll, .popstate]
    "https://app.example/a" "https://app.example/b" ⟨"https://app.example/a", []⟩
    rfl (by decide) (by decide)
  exact ⟨h.1, h.2.1, h.2.2 .titleSettle⟩

/-- Any window event whose origin differs from the trusted origin is
dropped by the content script's listener before type dispatch. -/
theorem contentWindowDispatch_reject (extensionConfig : Option ConfigValue)
    (event : WindowEvent) (h : event.origin ≠ getTrustedOrigin extensionConfig) :
    contentWindowDispatch extensionConfig event = none := by
  unfold contentWindowDispatch
  by_cases hd : event.hasObjectData
  · simp [hd, h]
  · simp [hd]

/-- C2 counterexample: a message from `https://evil.example` carrying the
recognized type `manipulate-dom` IS dispatched to a handler in the sidebar
script context (its listener has no origin check), even though that origin
differs from the trusted panel origin of the default configuration. -/
theorem c2_counterexample_sidebar_dispatches_evil_origin :
    getTrustedOrigin (some defaultExtensionConfig) =
      "https://add-functions-codelution_chrome_extension.toddle.site" ∧
    "https://evil.example" ≠ getTrustedOrigin (some defaultExtensionConfig) ∧
    sidebarManipulateDomDispatch
      ⟨"https://evil.example", true, some "manipulate-dom", some "#x", none, none,
        none, none, none, none, none, none⟩ = true := by
  refine ⟨by decide, by decide, by decide⟩

/-- C2 amended: in the content script context, no handler is ever
dispatched for a cross-frame message whose origin differs from the
configured trusted panel origin, whatever its type; the sidebar script's
window listeners, however, dispatch on the type field alone without any
origin check. -/
theorem c2_amended_content_rejects_untrusted (extensionConfig : Option ConfigValue)
    (event : WindowEvent) (h : event.origin ≠ getTrustedOrigin extensionConfig) :
    contentWindowDispatch extensionConfig event = none ∧
    sidebarManipulateDomDispatch event =
      (event.hasObjectData && event.msgType == some "manipulate-dom") :=
  ⟨contentWindowDispatch_reject extensionConfig event h, rfl⟩

/-- C2 amended witness: the evil-origin `manipulate-dom` message is
rejected by the content script under the default configuration. -/
theorem c2_amended_content_rejects_untrusted_witness :
    contentWindowDispatch (some defaultExtensionConfig)
      ⟨"https://evil.example", true, some "manipulate-dom", some "#x", none, none,
        none, none, none, none, none, none⟩ = none :=
  (c2_amended_content_rejects_untrusted (some defaultExtensionConfig)
    ⟨"https://evil.example", true, some "manipulate-dom", some "#x", none, none,
      none, none, none, none, none, none⟩ (by decide)).1

/-- C3: the origin validator accepts exactly the derived trusted origin;
when the configuration is absent, yields no string at the iframeSrc path,
or yields a malformed URL, the trusted origin is the empty string and
every message with a (necessarily nonempty) real origin serialization is
rejected. -/
theorem c3_origin_validator (extensionConfig : Option ConfigValue) (origin : String) :
    (originAccepts extensionConfig origin = true ↔
      origin = getTrustedOrigin extensionConfig) ∧
    ((getConfig extensionConfig "sidebar.iframeSrc" none = none ∨
      (∀ v, getConfig extensionConfig "sidebar.iframeSrc" none = some v →
        (∀ s, v = ConfigValue.str s → urlOrigin s = none)) ) →
      getTrustedOrigin extensionConfig = "" ∧
      (origin ≠ "" → originAccepts extensionConfig origin = false)) := by
  constructor
  · simp [originAccepts]
  · intro h
    have htrust : getTrustedOrigin extensionConfig = "" := by
      unfold getTrustedOrigin
      cases h with
      | inl h0 => rw [h0]
      | inr h1 =>
        cases hg : getConfig extensionConfig "sidebar.iframeSrc" none with
        | none => rfl
        | some v =>
          cases v with
          | str s =>
            have := h1 _ hg s rfl
            simp [this]
          | num n => rfl
          | boolean b => rfl
          | obj fields => rfl
    refine ⟨htrust, fun hne => ?_⟩
    simp [originAccepts, htrust, hne]

/-- C3 witness: with no configuration loaded the trusted origin is empty
and a real origin is rejected; with the default configuration the genuine
panel origin is accepted. -/
theorem c3_origin_validator_witness :
    getTrustedOrigin none = "" ∧
    originAccepts none "https://evil.example" = false ∧
    originAccepts (some defaultExtensionConfig)
      "https://add-functions-codelution_chrome_extension.toddle.site" = true := by
  have h := (c3_origin_validator none "https://evil.example").2 (Or.inl rfl)
  have h2 := (c3_origin_validator (some defaultExtensionConfig)
    "https://add-functions-codelution_chrome_extension.toddle.site").1
  exact ⟨h.1, h.2 (by decide), h2.mpr (by decide)⟩

/-- C10: before the asynchronous configuration load completes the
module-level `extensionConfig` is `null`; then the trusted origin is the
empty string and the content script's window listener dispatches no
handler for any cross-frame message with a real (nonempty) origin — the
genuine panel origin included. -/
theorem c10_preload_drops_all_messages (event : WindowEvent)
    (h : event.origin ≠ "") :
    getTrustedOrigin none = "" ∧ contentWindowDispatch none event = none :=
  ⟨rfl, contentWindowDispatch_reject none event (by rw [show getTrustedOrigin none = "" from rfl]; exact h)⟩

/-- C10 witness: a `manipulate-dom` message from the genuine panel origin
is dropped while the configuration is still unloaded. -/
theorem c10_preload_drops_all_messages_witness :
    contentWindowDispatch none
      ⟨"https://add-functions-codelution_chrome_extension.toddle.site", true,
        some "manipulate-dom", some "#x", none, none, none, none, none, none,
        none, none⟩ = none :=
  (c10_preload_drops_all_messages
    ⟨"https://add-functions-codelution_chrome_extension.toddle.site", true,
      some "manipulate-dom", some "#x", none, none, none, none, none, none,
      none, none⟩ (by decide)).2

/-- Delivering one event maps every attached binding through its own
step and collects one optional emission per binding, in attach order. -/
theorem fireBindings_spec (el : DomElement) (sel evt : String) (ifp : Bool) :
    ∀ bs : List Binding,
      fireBindings el sel evt ifp bs =
        (bs.map (bindingAfterEvent el sel evt ifp),
         bs.filterMap (bindingEmission el sel evt ifp))
  | [] => rfl
  | b :: rest => by
    have ih := fireBindings_spec el sel evt ifp rest
    by_cases hmatch : b.selector = sel ∧ b.eventType = evt
    · simp only [fireBindings, ih, bindingAfterEvent, bindingEmission, if_pos hmatch,
        List.map_cons, List.filterMap_cons]
      cases hfb : (fireBinding el ifp b).2 <;> simp [hfb]
    · simp only [fireBindings, ih, bindingAfterEvent, bindingEmission, if_neg hmatch,
        List.map_cons, List.filterMap_cons]

/-- C4 counterexample: two registrations with the same watchId `w1` on the
same element, then one change of the value from `a` to `b`: the trace
shows two initial notifications and then TWO change notifications for the
single change — the listener installed by the earlier registration is
still active and emits, so stale bindings do produce further
notifications. -/
theorem c4_counterexample_stale_binding_fires :
    (fireEvent [("#x", ⟨[("value", "b")], []⟩)] "#x" "input" true
      (handleDomObserver [("#x", ⟨[("value", "a")], []⟩)] "#x" (some "value")
        (some "input") (some "w1") true
        (handleDomObserver [("#x", ⟨[("value", "a")], []⟩)] "#x" (some "value")
          (some "input") (some "w1") true ⟨[], []⟩))).sent =
      [⟨some "#x", some "value", some "a", some "w1"⟩,
       ⟨some "#x", some "value", some "a", some "w1"⟩,
       ⟨some "#x", some "value", some "b", some "w1"⟩,
       ⟨some "#x", some "value", some "b", some "w1"⟩] := by
  decide

/-- C4 amended: re-registering a watchId does not replace the earlier
binding — registration on an existing element appends a new binding and
removes or disables nothing, and a later event delivers to every attached
binding (earlier registrations with the same watchId included), each
emitting per its own change detection. -/
theorem c4_amended_reregistration_appends (page : List (String × DomElement))
    (sel : String) (aOpt eOpt wid : Option String) (ifp : Bool) (st : WatchState)
    (el : DomElement) (hel : querySelector page sel = some el) :
    (handleDomObserver page sel aOpt eOpt wid ifp st).bindings =
      st.bindings ++ [⟨sel, orDefault aOpt "innerText",
        orDefault eOpt (if orDefault aOpt "innerText" = "value" then "input"
          else "DOMSubtreeModified"),
        wid, readValue el (orDefault aOpt "innerText")⟩] ∧
    (∀ (st2 : WatchState) (page2 : List (String × DomElement)) (el2 : DomElement)
        (sel2 evt : String), querySelector page2 sel2 = some el2 →
      (fireEvent page2 sel2 evt ifp st2).sent =
        st2.sent ++ st2.bindings.filterMap (bindingEmission el2 sel2 evt ifp)) := by
  constructor
  · simp [handleDomObserver, hel]
  · intro st2 page2 el2 sel2 evt hel2
    simp [fireEvent, hel2, fireBindings_spec]

/-- C4 amended witness: the concrete double registration appends two
bindings, and the change event emits one message per binding. -/
theorem c4_amended_reregistration_appends_witness :
    (handleDomObserver [("#x", ⟨[("value", "a")], []⟩)] "#x" (some "value")
        (some "input") (some "w1") true ⟨[], []⟩).bindings =
      [⟨"#x", "value", "input", some "w1", some "a"⟩] ∧
    (fireEvent [("#x", ⟨[("value", "b")], []⟩)] "#x" "input" true
        ⟨[⟨"#x", "value", "input", some "w1", some "a"⟩,
          ⟨"#x", "value", "input", some "w1", some "a"⟩], []⟩).sent =
      List.filterMap (bindingEmission ⟨[("value", "b")], []⟩ "#x" "input" true)
        [⟨"#x", "value", "input", some "w1", some "a"⟩,
         ⟨"#x", "value", "input", some "w1", some "a"⟩] := by
  have h := c4_amended_reregistration_appends [("#x", ⟨[("value", "a")], []⟩)] "#x"
    (some "value") (some "input") (some "w1") true ⟨[], []⟩ ⟨[("value", "a")], []⟩ rfl
  refine ⟨by rw [h.1]; rfl, ?_⟩
  have h2 := h.2 ⟨[⟨"#x", "value", "input", some "w1", some "a"⟩,
      ⟨"#x", "value", "input", some "w1", some "a"⟩], []⟩
    [("#x", ⟨[("value", "b")], []⟩)] ⟨[("value", "b")], []⟩ "#x" "input" rfl
  rw [h2]
  rfl

/-- The trace of values a binding emits over a sequence of fresh reads is
exactly the reads that differ from the previously observed value. -/
theorem runReads_values (reads : List (Option String)) :
    ∀ b : Binding,
      (runReads b reads).2.map (fun m => m.value) = changesFrom b.lastValue reads := by
  induction reads with
  | nil => intro b; rfl
  | cons v vs ih =>
    intro b
    by_cases hv : v ≠ b.lastValue
    · simp only [runReads, bindingStepValue, if_pos hv, changesFrom]
      simp [ih, hv]
    · simp only [runReads, bindingStepValue, if_neg hv, changesFrom]
      simp only [ne_eq, not_not] at hv
      simp [ih, hv]

/-- C8: (1) on an existing element the registration immediately emits one
notification whose value is the element's value at registration time
(property preferred over attribute), whatever `eventType` was requested;
(2) a listener firing emits a notification iff the freshly read value
differs from the last observed value, and the notification carries that
fresh value; (3) over any read sequence the emitted values are exactly
the successive changes. -/
theorem c8_first_and_change_notifications :
    (∀ (page : List (String × DomElement)) (sel : String)
        (aOpt eOpt wid : Option String) (st : WatchState) (el : DomElement),
      querySelector page sel = some el →
      (handleDomObserver page sel aOpt eOpt wid true st).sent =
        st.sent ++ [⟨some sel, some (orDefault aOpt "innerText"),
          readValue el (orDefault aOpt "innerText"), wid⟩]) ∧
    (∀ (b : Binding) (v : Option String),
      (((bindingStepValue b v true).2).isSome = true ↔ v ≠ b.lastValue) ∧
      (∀ m, (bindingStepValue b v true).2 = some m → m.value = v)) ∧
    (∀ (b : Binding) (reads : List (Option String)),
      (runReads b reads).2.map (fun m => m.value) = changesFrom b.lastValue reads) := by
  refine ⟨?_, ?_, fun b reads => runReads_values reads b⟩
  · intro page sel aOpt eOpt wid st el hel
    simp [handleDomObserver, hel]
  · intro b v
    constructor
    · by_cases hv : v ≠ b.lastValue <;> simp [bindingStepValue, hv]
    · intro m hm
      by_cases hv : v ≠ b.lastValue
      · simp only [bindingStepValue, if_pos hv] at hm
        cases hm
        rfl
      · simp [bindingStepValue, hv] at hm

/-- C8 witness: concrete registration baseline and a no-op write followed
by a real change. -/
theorem c8_first_and_change_notifications_witness :
    (handleDomObserver [("#y", ⟨[], [("data-k", "v0")]⟩)] "#y" (some "data-k")
        (some "change") (some "w9") true ⟨[], []⟩).sent =
      [⟨some "#y", some "data-k", some "v0", some "w9"⟩] ∧
    ((bindingStepValue ⟨"#y", "data-k", "change", some "w9", some "v0"⟩
        (some "v0") true).2).isSome = false ∧
    (runReads ⟨"#y", "data-k", "change", some "w9", some "v0"⟩
        [some "v0", some "v1", some "v1"]).2.map (fun m => m.value) =
      [some "v1"] := by
  have h := c8_first_and_change_notifications
  refine ⟨?_, by decide, ?_⟩
  · have h1 := h.1 [("#y", ⟨[], [("data-k", "v0")]⟩)] "#y" (some "data-k")
      (some "change") (some "w9") ⟨[], []⟩ ⟨[], [("data-k", "v0")]⟩ rfl
    rw [h1]
    rfl
  · have h3 := h.2.2 ⟨"#y", "data-k", "change", some "w9", some "v0"⟩
      [some "v0", some "v1", some "v1"]
    rw [h3]
    rfl

/-- C5 counterexample: the background script's self-healing reset of a
stale open state writes only `{ sidebarOpen: false }`: applied to a
stored record it leaves `sidebarUrl` and the old `lastStateChange`
untouched — a persisted write of the panel state that neither sets the
timestamp nor fully overwrites the record. -/
theorem c5_counterexample_background_patch :
    backgroundRestoreCheck ⟨some true, some "https://a.example/", some 1000⟩ 1000000 =
      .patchesClosed ⟨some false, none, none⟩ ∧
    backgroundStaleReset.lastStateChange = none ∧
    applySet ⟨some true, some "https://a.example/", some 1000⟩ backgroundStaleReset =
      ⟨some false, some "https://a.example/", some 1000⟩ := by
  decide

/-- C5 amended: every write issued through the content script's
`saveSidebarState` (all its call sites, including the content-side stale
resets) sets `lastStateChange` and fully overwrites the three-field
record; the background script's stale reset, by contrast, patches only
`sidebarOpen` to `false`, leaving `sidebarUrl` and `lastStateChange`
unchanged. -/
theorem c5_amended_save_overwrites_background_patches (st : StoredState)
    (isOpen : Bool) (href : String) (now : Int) :
    applySet st (saveSidebarStateArg isOpen href now) = ⟨some isOpen, some href, some now⟩ ∧
    applySet st backgroundStaleReset = ⟨some false, st.sidebarUrl, st.lastStateChange⟩ :=
  ⟨rfl, rfl⟩

/-- C6: restore evaluation with the persisted state open: when the
timestamp is at or past the restore window it leaves the panel closed
and rewrites the full record with `sidebarOpen = false`; when the
timestamp is a nonzero instant within the window and no panel DOM exists
it reopens the panel; when the persisted state is not open it does
nothing. -/
theorem c6_restore_evaluation (extensionConfig : Option ConfigValue)
    (stored : StoredState) (now : Int) (href : String) (hasSidebar : Bool) (t : Int) :
    (stored.sidebarOpen = some true → stored.lastStateChange = some t →
      t ≤ now - autoRestoreMinutes extensionConfig * 60 * 1000 →
      restoreSidebarState extensionConfig stored now href hasSidebar =
        .writesClosed (saveSidebarStateArg false href now)) ∧
    (stored.sidebarOpen = some true → stored.lastStateChange = some t → t ≠ 0 →
      t > now - autoRestoreMinutes extensionConfig * 60 * 1000 → hasSidebar = false →
      restoreSidebarState extensionConfig stored now href hasSidebar = .opensPanel) ∧
    (stored.sidebarOpen ≠ some true →
      restoreSidebarState extensionConfig stored now href hasSidebar = .noAction) := by
  refine ⟨?_, ?_, ?_⟩
  · intro hopen hlast hstale
    unfold restoreSidebarState
    have hw : recentlyChanged stored.lastStateChange
        (now - autoRestoreMinutes extensionConfig * 60 * 1000) = false := by
      rw [hlast]
      simp [recentlyChanged, truthyInt]
      intro _
      omega
    simp [hopen, hw]
  · intro hopen hlast hnz hfresh hnosb
    unfold restoreSidebarState
    have hw : recentlyChanged stored.lastStateChange
        (now - autoRestoreMinutes extensionConfig * 60 * 1000) = true := by
      rw [hlast]
      simp [recentlyChanged, truthyInt, hnz, hfresh]
    simp [hopen, hw, hnosb]
  · intro hnotopen
    unfold restoreSidebarState
    have hne : (stored.sidebarOpen == some true) = false := by
      cases h : stored.sidebarOpen with
      | none => rfl
      | some b =>
        cases b with
        | true => exact absurd h hnotopen
        | false => rfl
    simp [hne]

/-- C6 witness: with the default five-minute window, a 10-minute-old open
state is rewritten closed, a 1-minute-old open state reopens the panel,
and a closed state does nothing (clock 1000000000, page
`https://p.example/`). -/
theorem c6_restore_evaluation_witness :
    restoreSidebarState none ⟨some true, some "https://p.example/", some 999400000⟩
      1000000000 "https://p.example/" false =
      .writesClosed (saveSidebarStateArg false "https://p.example/" 1000000000) ∧
    restoreSidebarState none ⟨some true, some "https://p.example/", some 999940000⟩
      1000000000 "https://p.example/" false = .opensPanel ∧
    restoreSidebarState none ⟨some false, some "https://p.example/", some 999940000⟩
      1000000000 "https://p.example/" false = .noAction := by
  refine ⟨?_, ?_, ?_⟩
  · exact (c6_restore_evaluation none ⟨some true, some "https://p.example/", some 999400000⟩
      1000000000 "https://p.example/" false 999400000).1 rfl rfl (by decide)
  · exact (c6_restore_evaluation none ⟨some true, some "https://p.example/", some 999940000⟩
      1000000000 "https://p.example/" false 999940000).2.1 rfl rfl (by decide) (by decide) rfl
  · exact (c6_restore_evaluation none ⟨some false, some "https://p.example/", some 999940000⟩
      1000000000 "https://p.example/" false 999940000).2.2 (by decide)

/-- C9: evaluation at the failing input. An `observe-dom-value`
registration carrying `watchId = "w7"` is forwarded by the sidebar script
without any watchId (it forwards `iframeSelector` instead); the watch's
immediate `domValueChanged` notification therefore carries no watchId,
and the sidebar's relay — which requires a truthy `msg.watchId` — drops
it, so the correlation id is never carried back. The parallel
`start-dom-observer` route forwards the same registration with the
watchId intact. -/
theorem c9_observe_dom_value_drops_watch_id :
    (sidebarObserveDomValueForward
        ⟨"https://panel.example", true, some "observe-dom-value", some "#email",
          some "value", some "input", some "w7", none, none, none, none, none⟩).map
      (fun m => m.watchId) = some none ∧
    (observeDomValueRequest [("#email", ⟨[("value", "hello")], []⟩)]
        ⟨"manipulateDom", some "observeDomValue", some "#email", some "value",
          some "input", none, none⟩ ⟨[], []⟩).sent =
      [⟨some "#email", some "value", some "hello", none⟩] ∧
    sidebarRelayDomValueChanged "domValueChanged"
      ⟨some "#email", some "value", some "hello", none⟩ true = none ∧
    (sidebarStartDomObserverForward
        ⟨"https://panel.example", true, some "start-dom-observer", some "#email",
          some "value", some "input", some "w7", none, none, none, none, none⟩).map
      (fun m => m.watchId) = some (some "w7") := by
  refine ⟨by decide, by decide, by decide, by decide⟩

/-- Inversion: a preorder search failing at a node fails at its root
fields and in its children. -/
theorem findPN_eq_none (q : String → String → Option String → Bool)
    (t i : String) (s : Option String) (cs : DomForest)
    (h : findPN q (.node t i s cs) = none) :
    q t i s = false ∧ findPF q cs = none := by
  by_cases hq : q t i s <;> simp [findPN, hq] at h ⊢
  exact h

/-- Inversion: a preorder search failing on a forest fails on its head
and tail. -/
theorem findPF_cons_none (q : String → String → Option String → Bool)
    (c : DomNode) (cs : DomForest) (h : findPF q (.cons c cs) = none) :
    findPN q c = none ∧ findPF q cs = none := by
  cases hc : findPN q c with
  | some r => simp [findPF, hc] at h
  | none => simp [findPF, hc] at h; exact ⟨rfl, h⟩

/-- Counting distributes over appending one node at the end of a forest. -/
theorem countPF_appendEnd (q : String → String → Option String → Bool) (x : DomNode) :
    (f : DomForest) → countPF q (appendEndF f x) = countPF q f + countPN q x
  | .nil => by simp [appendEndF, countPF]
  | .cons c cs => by
    simp [appendEndF, countPF, countPF_appendEnd q x cs]
    omega

/-- Searching a clean forest after appending a node at the end finds
whatever the appended node's subtree yields. -/
theorem findPF_appendEnd (q : String → String → Option String → Bool) (x : DomNode) :
    (f : DomForest) → findPF q f = none → findPF q (appendEndF f x) = findPN q x
  | .nil, _ => by cases hx : findPN q x <;> simp [appendEndF, findPF, hx]
  | .cons c cs, h => by
    obtain ⟨h1, h2⟩ := findPF_cons_none q c cs h
    simp [appendEndF, findPF, h1, findPF_appendEnd q x cs h2]

mutual
/-- A node found by a preorder search satisfies the search predicate. -/
theorem findPN_sat (q : String → String → Option String → Bool) :
    (n : DomNode) → (x : DomNode) → findPN q n = some x →
      q (nodeTag x) (nodeId x) (nodeSrc x) = true
  | .node t i s cs, x, h => by
    by_cases hq : q t i s
    · simp only [findPN, if_pos hq, Option.some.injEq] at h
      rw [← h]
      simpa [nodeTag, nodeId, nodeSrc] using hq
    · simp only [findPN, if_neg hq] at h
      exact findPF_sat q cs x h

/-- A node found by a preorder forest search satisfies the predicate. -/
theorem findPF_sat (q : String → String → Option String → Bool) :
    (f : DomForest) → (x : DomNode) → findPF q f = some x →
      q (nodeTag x) (nodeId x) (nodeSrc x) = true
  | .cons c cs, x, h => by
    cases hc : findPN q c with
    | some r =>
      simp only [findPF, hc, Option.some.injEq] at h
      exact h ▸ findPN_sat q c r hc
    | none =>
      simp only [findPF, hc] at h
      exact findPF_sat q cs x h
end

mutual
/-- In a `q`-clean node, the children of any node found by a `p`-search
are also `q`-clean. -/
theorem findPN_none_sub (q p : String → String → Option String → Bool) :
    (n : DomNode) → (x : DomNode) → findPN q n = none → findPN p n = some x →
      findPF q (nodeChildren x) = none
  | .node t i s cs, x, hq, hp => by
    obtain ⟨hq1, hq2⟩ := findPN_eq_none q t i s cs hq
    by_cases hpt : p t i s
    · simp only [findPN, if_pos hpt, Option.some.injEq] at hp
      rw [← hp]
      exact hq2
    · simp only [findPN, if_neg hpt] at hp
      exact findPF_none_sub q p cs x hq2 hp

/-- In a `q`-clean forest, the children of any node found by a `p`-search
are also `q`-clean. -/
theorem findPF_none_sub (q p : String → String → Option String → Bool) :
    (f : DomForest) → (x : DomNode) → findPF q f = none → findPF p f = some x →
      findPF q (nodeChildren x) = none
  | .cons c cs, x, hq, hp => by
    obtain ⟨h1, h2⟩ := findPF_cons_none q c cs hq
    cases hc : findPN p c with
    | some r =>
      simp only [findPF, hc, Option.some.injEq] at hp
      exact hp ▸ findPN_none_sub q p c r h1 hc
    | none =>
      simp only [findPF, hc] at hp
      exact findPF_none_sub q p cs x h2 hp
end

mutual
/-- In a `q`-clean node, the parent-children forest located by the parent
scan is `q`-clean. -/
theorem parentChildrenN_none (q : String → String → Option String → Bool) (tid : String) :
    (n : DomNode) → (r : DomForest) → findPN q n = none →
      parentChildrenN tid n = some r → findPF q r = none
  | .node t i s cs, r, hq, hp => by
    obtain ⟨_, hq2⟩ := findPN_eq_none q t i s cs hq
    exact parentScanF_none q tid cs cs r hq2 hq2 hp

/-- In a `q`-clean scan, the parent-children forest returned is `q`-clean. -/
theorem parentScanF_none (q : String → String → Option String → Bool) (tid : String) :
    (full f : DomForest) → (r : DomForest) → findPF q full = none →
      findPF q f = none → parentScanF tid full f = some r → findPF q r = none
  | _, .nil, r, _, _, hp => by simp [parentScanF] at hp
  | full, .cons c cs, r, hfull, hf, hp => by
    obtain ⟨h1, h2⟩ := findPF_cons_none q c cs hf
    by_cases hid : nodeId c == tid
    · simp only [parentScanF, if_pos hid, Option.some.injEq] at hp
      exact hp ▸ hfull
    · simp only [parentScanF, if_neg hid] at hp
      cases hc : parentChildrenN tid c with
      | some r2 =>
        rw [hc] at hp
        simp only [Option.some.injEq] at hp
        exact hp ▸ parentChildrenN_none q tid c r2 h1 hc
      | none =>
        rw [hc] at hp
        exact parentScanF_none q tid full cs r hfull h2 hp
end

mutual
/-- Appending a child at the first `p`-node of a `q`-clean node: a
`q`-search afterwards finds whatever the child's subtree yields. -/
theorem findPN_appendAt (q p : String → String → Option String → Bool) (child : DomNode) :
    (n : DomNode) → findPN q n = none → (findPN p n).isSome = true →
      findPN q (appendAtPN p child n) = findPN q child
  | .node t i s cs, hq, hp => by
    obtain ⟨hq1, hq2⟩ := findPN_eq_none q t i s cs hq
    by_cases hpt : p t i s
    · simp only [appendAtPN, if_pos hpt, findPN, hq1, Bool.false_eq_true, if_false]
      exact findPF_appendEnd q child cs hq2
    · have hps : (findPF p cs).isSome = true := by
        simpa [findPN, hpt] using hp
      simp only [appendAtPN, if_neg hpt, findPN, hq1, Bool.false_eq_true, if_false]
      exact findPF_appendAt q p child cs hq2 hps

/-- Appending a child at the first `p`-node of a `q`-clean forest: a
`q`-search afterwards finds whatever the child's subtree yields. -/
theorem findPF_appendAt (q p : String → String → Option String → Bool) (child : DomNode) :
    (f : DomForest) → findPF q f = none → (findPF p f).isSome = true →
      findPF q (appendAtPF p child f) = findPN q child
  | .nil, _, hp => by simp [findPF] at hp
  | .cons c cs, hq, hp => by
    obtain ⟨h1, h2⟩ := findPF_cons_none q c cs hq
    cases hpc : findPN p c with
    | some r =>
      have hnode := findPN_appendAt q p child c h1 (by simp [hpc])
      simp only [appendAtPF, hpc, Option.isSome_some, if_pos]
      cases hch : findPN q child with
      | some r2 => simp [findPF, hnode, hch]
      | none => simp [findPF, hnode, hch, h2]
    | none =>
      have hps : (findPF p cs).isSome = true := by
        simpa [findPF, hpc] using hp
      simp only [appendAtPF, hpc, Option.isSome_none, Bool.false_eq_true, if_false]
      simp only [findPF, h1]
      exact findPF_appendAt q p child cs h2 hps
end

mutual
/-- Appending a child at the first `p`-node adds exactly the child's
`q`-count to a node's `q`-count. -/
theorem countPN_appendAt (q p : String → String → Option String → Bool) (child : DomNode) :
    (n : DomNode) → (findPN p n).isSome = true →
      countPN q (appendAtPN p child n) = countPN q n + countPN q child
  | .node t i s cs, hp => by
    by_cases hpt : p t i s
    · simp only [appendAtPN, if_pos hpt, countPN, countPF_appendEnd q child cs]
      omega
    · have hps : (findPF p cs).isSome = true := by
        simpa [findPN, hpt] using hp
      simp only [appendAtPN, if_neg hpt, countPN,
        countPF_appendAt q p child cs hps]
      omega

/-- Appending a child at the first `p`-node adds exactly the child's
`q`-count to a forest's `q`-count. -/
theorem countPF_appendAt (q p : String → String → Option String → Bool) (child : DomNode) :
    (f : DomForest) → (findPF p f).isSome = true →
      countPF q (appendAtPF p child f) = countPF q f + countPN q child
  | .nil, hp => by simp [findPF] at hp
  | .cons c cs, hp => by
    cases hpc : findPN p c with
    | some r =>
      simp only [appendAtPF, hpc, Option.isSome_some, if_pos, countPF,
        countPN_appendAt q p child c (by simp [hpc])]
      omega
    | none =>
      have hps : (findPF p cs).isSome = true := by
        simpa [findPF, hpc] using hp
      simp only [appendAtPF, hpc, Option.isSome_none, Bool.false_eq_true, if_false,
        countPF, countPF_appendAt q p child cs hps]
      omega
end

mutual
/-- A `q`-clean node has `q`-count zero. -/
theorem countPN_zero (q : String → String → Option String → Bool) :
    (n : DomNode) → findPN q n = none → countPN q n = 0
  | .node t i s cs, h => by
    obtain ⟨h1, h2⟩ := findPN_eq_none q t i s cs h
    simp [countPN, h1, countPF_zero q cs h2]

/-- A `q`-clean forest has `q`-count zero. -/
theorem countPF_zero (q : String → String → Option String → Bool) :
    (f : DomForest) → findPF q f = none → countPF q f = 0
  | .nil, _ => rfl
  | .cons c cs, h => by
    obtain ⟨h1, h2⟩ := findPF_cons_none q c cs h
    simp [countPF, countPN_zero q c h1, countPF_zero q cs h2]
end

set_option maxHeartbeats 1000000 in
/-- C7: the injection operation is idempotent. On a document with no
element of type `name`, no script with the given src, and an existing
target, with the element type registered and placement `append`: the
first call appends exactly one custom element (with its script inside) at
the target, yielding exactly one element of that type and exactly one
script tag with that src in the whole document, and a second call with
identical arguments returns the document unchanged — no duplicate element
or script tag is ever created. -/
theorem c7_inject_idempotent (doc : DomForest) (nm src sel : String)
    (registryAvailable : Bool) (registry : List String)
    (hnm : nm ≠ "script") (hname : nm ≠ "") (hsrc : src ≠ "") (hsel : sel ≠ "")
    (hclean1 : findPF (tagP nm) doc = none)
    (hclean2 : findPF (scriptP src) doc = none)
    (htgt : (findPF (idP sel) doc).isSome = true)
    (hreg : (registryAvailable && !(registry.contains nm)) = false) :
    injectWebComponent registryAvailable registry
      ⟨some nm, some src, some sel, some "append"⟩ doc =
      .done (appendAtPF (idP sel) (customElNode nm src) doc) ∧
    countPF (tagP nm) (appendAtPF (idP sel) (customElNode nm src) doc) = 1 ∧
    countPF (scriptP src) (appendAtPF (idP sel) (customElNode nm src) doc) = 1 ∧
    injectWebComponent registryAvailable registry
      ⟨some nm, some src, some sel, some "append"⟩
      (appendAtPF (idP sel) (customElNode nm src) doc) =
      .done (appendAtPF (idP sel) (customElNode nm src) doc) := by
  obtain ⟨tgt, htgteq⟩ := Option.isSome_iff_exists.mp htgt
  have htgt2 : (findPF (idP sel) doc).isSome = true := by simp [htgteq]
  have hsat := findPF_sat (idP sel) doc tgt htgteq
  have hid : nodeId tgt = sel := by simpa [idP] using hsat
  have hsub : findPF (tagP nm) (nodeChildren tgt) = none :=
    findPF_none_sub (tagP nm) (idP sel) doc tgt hclean1 htgteq
  have hts : truthyStr (some src) = true := by simp [truthyStr, hsrc]
  have htn : truthyStr (some nm) = true := by simp [truthyStr, hname]
  have hfirst : injectWebComponent registryAvailable registry
      ⟨some nm, some src, some sel, some "append"⟩ doc =
      .done (appendAtPF (idP sel) (customElNode nm src) doc) := by
    unfold injectWebComponent
    simp only [hts, htn, Bool.not_true, Bool.false_eq_true, if_false, hasScriptF,
      hclean1, hclean2, Option.isSome_none, Bool.or_self, hreg, htgteq]
    rw [if_neg hsel]
    have hpar : ∀ r, parentScanF (nodeId tgt) doc doc = some r → findPF (tagP nm) r = none :=
      fun r hr => parentScanF_none (tagP nm) (nodeId tgt) doc doc r hclean1 hclean1 hr
    cases hps : parentScanF (nodeId tgt) doc doc with
    | some r =>
      simp only [hps, hsub, Option.isSome_none, hpar r hps, Bool.or_self,
        Bool.false_eq_true, if_false]
      simp [orDefault, hid]
    | none =>
      simp only [hps, hsub, Option.isSome_none, findPF, Bool.or_self,
        Bool.false_eq_true, if_false]
      simp [orDefault, hid]
  have hc1 : countPN (tagP nm) (customElNode nm src) = 1 := by
    simp [customElNode, scriptNode, countPN, countPF, tagP, Ne.symm hnm]
  have hc2 : countPN (scriptP src) (customElNode nm src) = 1 := by
    simp [customElNode, scriptNode, countPN, countPF, scriptP, hnm]
  have hcount1 : countPF (tagP nm) (appendAtPF (idP sel) (customElNode nm src) doc) = 1 := by
    rw [countPF_appendAt (tagP nm) (idP sel) (customElNode nm src) doc htgt2,
      countPF_zero (tagP nm) doc hclean1, hc1]
  have hcount2 : countPF (scriptP src) (appendAtPF (idP sel) (customElNode nm src) doc) = 1 := by
    rw [countPF_appendAt (scriptP src) (idP sel) (customElNode nm src) doc htgt2,
      countPF_zero (scriptP src) doc hclean2, hc2]
  have hfind1 : findPF (scriptP src) (appendAtPF (idP sel) (customElNode nm src) doc) =
      some (scriptNode src) := by
    rw [findPF_appendAt (scriptP src) (idP sel) (customElNode nm src) doc hclean2 htgt2]
    simp [customElNode, scriptNode, findPN, findPF, scriptP, hnm]
  have hfind2 : findPF (tagP nm) (appendAtPF (idP sel) (customElNode nm src) doc) =
      some (customElNode nm src) := by
    rw [findPF_appendAt (tagP nm) (idP sel) (customElNode nm src) doc hclean1 htgt2]
    simp [customElNode, findPN, tagP]
  have hsecond : injectWebComponent registryAvailable registry
      ⟨some nm, some src, some sel, some "append"⟩
      (appendAtPF (idP sel) (customElNode nm src) doc) =
      .done (appendAtPF (idP sel) (customElNode nm src) doc) := by
    unfold injectWebComponent
    simp only [hts, htn, Bool.not_true, Bool.false_eq_true, if_false, hasScriptF,
      hfind1, hfind2, Option.isSome_some, Bool.true_or]
    simp [customElNode, scriptNode, nodeChildren, findPF, findPN, scriptP]
  exact ⟨hfirst, hcount1, hcount2, hsecond⟩

/-- C7 witness: injecting `x-widget`/`a.js` at `#root` twice on a
one-element document. -/
theorem c7_inject_idempotent_witness :
    injectWebComponent true ["x-widget"]
      ⟨some "x-widget", some "a.js", some "root", some "append"⟩
      (.cons (.node "div" "root" none .nil) .nil) =
      .done (appendAtPF (idP "root") (customElNode "x-widget" "a.js")
        (.cons (.node "div" "root" none .nil) .nil)) ∧
    countPF (tagP "x-widget") (appendAtPF (idP "root") (customElNode "x-widget" "a.js")
      (.cons (.node "div" "root" none .nil) .nil)) = 1 ∧
    countPF (scriptP "a.js") (appendAtPF (idP "root") (customElNode "x-widget" "a.js")
      (.cons (.node "div" "root" none .nil) .nil)) = 1 ∧
    injectWebComponent true ["x-widget"]
      ⟨some "x-widget", some "a.js", some "root", some "append"⟩
      (appendAtPF (idP "root") (customElNode "x-widget" "a.js")
        (.cons (.node "div" "root" none .nil) .nil)) =
      .done (appendAtPF (idP "root") (customElNode "x-widget" "a.js")
        (.cons (.node "div" "root" none .nil) .nil)) := by
  have h := c7_inject_idempotent (.cons (.node "div" "root" none .nil) .nil)
    "x-widget" "a.js" "root" true ["x-widget"] (by decide) (by decide) (by decide)
    (by decide) rfl rfl rfl (by decide)
  exact ⟨h.1, h.2.1, h.2.2.1, h.2.2.2⟩
